import Mathlib

/-!
Shallow embedding of the Selective Repeat protocol implementation in sr.c.

Machine integers of the C program are modelled as Lean Int (all arithmetic
performed by the program stays far from the int range, and every `%` the
program executes is applied to nonnegative operands, where C truncated
division agrees with Int.emod).  The C arrays indexed by ints are modelled
as total functions from Int; the program only ever reads and writes them
at the in-range indices it computes.  Calls to the emulator (tolayer3,
tolayer5, starttimer, stoptimer) are modelled as an emitted list of
actions; the instrumentation counters incremented by sr.c are carried in
the state records.  The C while/for loops are modelled by structural
recursion on an explicit bound that dominates the number of iterations the
C loop performs (windowcount for the sender loops, SEQSPACE for the
receiver delivery loop).
-/

def WINDOWSIZE : Int := 6

def SEQSPACE : Int := 12

def NOTINUSE : Int := -1

/-- struct pkt of emulator.h: three int header fields and a 20-byte payload
(char values are carried as Int, as ComputeChecksum casts them to int). -/
structure Pkt where
  seqnum : Int
  acknum : Int
  checksum : Int
  payload : List Int
deriving DecidableEq

/-- struct msg of emulator.h: 20 bytes of application data. -/
structure Msg where
  data : List Int
deriving DecidableEq

/-- ComputeChecksum of sr.c: seqnum + acknum + the sum of the payload bytes.
(The C loop adds payload[i] for i = 0..19; packets built by the program
always carry exactly 20 payload bytes.) -/
def ComputeChecksum (packet : Pkt) : Int :=
  packet.seqnum + packet.acknum + packet.payload.sum

/-- IsCorrupted of sr.c. -/
def IsCorrupted (packet : Pkt) : Bool :=
  if packet.checksum = ComputeChecksum packet then false else true

/-- One observable interaction of sr.c with the emulator. -/
inductive Ev where
  | toLayer3 (p : Pkt)
  | toLayer5 (payload : List Int)
  | startTimer
  | stopTimer
deriving DecidableEq

/-- The packets handed to the network layer within a list of actions. -/
def sentPackets (acts : List Ev) : List Pkt :=
  acts.filterMap (fun a => match a with
    | Ev.toLayer3 p => some p
    | _ => none)

/-- The payloads handed to the application layer within a list of actions. -/
def deliveredPayloads (acts : List Ev) : List (List Int) :=
  acts.filterMap (fun a => match a with
    | Ev.toLayer5 pl => some pl
    | _ => none)

/-- C array store: models an assignment f[k] = v into an int-indexed array of Bool. -/
def setBool (f : Int → Bool) (k : Int) (v : Bool) : Int → Bool :=
  fun x => if x = k then v else f x

/-- C array store: models an assignment f[k] = v into an int-indexed array of packets. -/
def setPkt (f : Int → Pkt) (k : Int) (v : Pkt) : Int → Pkt :=
  fun x => if x = k then v else f x

/-- The all-zero packet (value of the static C arrays before first write). -/
def zeroPkt : Pkt :=
  { seqnum := 0, acknum := 0, checksum := 0, payload := List.replicate 20 0 }

/-- Sender (A) state: the static variables of sr.c plus the instrumentation
counters the sender side increments. -/
structure SenderState where
  buffer : Int → Pkt
  windowfirst : Int
  windowlast : Int
  windowcount : Int
  A_nextseqnum : Int
  acked : Int → Bool
  window_full : Int
  total_ACKs_received : Int
  new_ACKs : Int
  packets_resent : Int

/-- seqfirst local of A_input: sequence number at the head of the window. -/
def seqFirst (s : SenderState) : Int :=
  (s.buffer s.windowfirst).seqnum

/-- seqlast local of A_input: sequence number at the tail of the window. -/
def seqLast (s : SenderState) : Int :=
  (s.buffer s.windowlast).seqnum

/-- The wraparound-aware window membership test of A_input (lines 121-122). -/
def ackInSpan (seqfirst seqlast acknum : Int) : Prop :=
  (seqfirst ≤ seqlast ∧ acknum ≥ seqfirst ∧ acknum ≤ seqlast) ∨
  (seqfirst > seqlast ∧ (acknum ≥ seqfirst ∨ acknum ≤ seqlast))

instance (a b c : Int) : Decidable (ackInSpan a b c) := by
  unfold ackInSpan
  infer_instance

/-- total_ACKs_received++ performed at the top of A_input's uncorrupted branch. -/
def bumpAcks (s : SenderState) : SenderState :=
  { s with total_ACKs_received := s.total_ACKs_received + 1 }

/-- acked[packet.acknum] = true and new_ACKs++ performed by A_input when the
for-loop finds the acknowledged packet (lines 129, 133). -/
def markAck (s : SenderState) (a : Int) : SenderState :=
  { s with acked := setBool s.acked a true,
           new_ACKs := s.new_ACKs + 1 }

/-- The for-loop of A_input (lines 125-141): scan offsets i = 0,...,windowcount-1
and stop at the first window slot whose stored seqnum equals the ack while the
ack is not yet recorded; the result is the array index of that slot. -/
def ackSearch (s : SenderState) (acknum : Int) : Option Int :=
  ((List.range s.windowcount.toNat).find? (fun i : Nat =>
      decide ((s.buffer ((s.windowfirst + (i : Int)) % WINDOWSIZE)).seqnum = acknum)
        && !(s.acked acknum))).map
    (fun i : Nat => (s.windowfirst + (i : Int)) % WINDOWSIZE)

/-- The while-loop of A_input (lines 146-149): drop the head while the head is
acknowledged.  Each iteration decrements windowcount, so windowcount.toNat
bounds the number of iterations the C loop performs. -/
def slideWindow : SenderState → Nat → SenderState
  | t, 0 => t
  | t, fuel+1 =>
    if 0 < t.windowcount ∧ t.acked ((t.buffer t.windowfirst).seqnum) = true then
      slideWindow
        { t with windowfirst := (t.windowfirst + 1) % WINDOWSIZE,
                 windowcount := t.windowcount - 1 } fuel
    else t

/-- A_output of sr.c. -/
def A_output (s : SenderState) (message : Msg) : SenderState × List Ev :=
  if s.windowcount < WINDOWSIZE then
    let draft : Pkt :=
      { seqnum := s.A_nextseqnum, acknum := NOTINUSE, checksum := 0, payload := message.data }
    let sendpkt : Pkt := { draft with checksum := ComputeChecksum draft }
    let wl := (s.windowlast + 1) % WINDOWSIZE
    let s1 : SenderState :=
      { s with windowlast := wl,
               buffer := setPkt s.buffer wl sendpkt,
               windowcount := s.windowcount + 1,
               acked := setBool s.acked sendpkt.seqnum false }
    ({ s1 with A_nextseqnum := (s1.A_nextseqnum + 1) % SEQSPACE },
     Ev.toLayer3 sendpkt ::
       (if s1.windowcount = 1 then [Ev.startTimer] else []))
  else
    ({ s with window_full := s.window_full + 1 }, [])

/-- A_input of sr.c. -/
def A_input (s : SenderState) (packet : Pkt) : SenderState × List Ev :=
  if IsCorrupted packet = false then
    let s1 := bumpAcks s
    if s1.windowcount ≠ 0 then
      if ackInSpan (seqFirst s1) (seqLast s1) packet.acknum then
        match ackSearch s1 packet.acknum with
        | some idx =>
          let s2 := markAck s1 packet.acknum
          if idx = s2.windowfirst then
            let s3 := slideWindow s2 s2.windowcount.toNat
            (s3, Ev.stopTimer ::
              (if 0 < s3.windowcount then [Ev.startTimer] else []))
          else (s2, [])
        | none => (s1, [])
      else (s1, [])
    else (s1, [])
  else (s, [])

/-- The for-loop of A_timerinterrupt (lines 178-187): resend every window slot
whose sequence number is not acknowledged, scanning offsets i, i+1, ... for
windowcount iterations. -/
def resendSweep (s : SenderState) : Nat → Int → List Ev
  | 0, _ => []
  | fuel+1, i =>
    (if s.acked ((s.buffer ((s.windowfirst + i) % WINDOWSIZE)).seqnum) = false
     then [Ev.toLayer3 (s.buffer ((s.windowfirst + i) % WINDOWSIZE))]
     else []) ++ resendSweep s fuel (i + 1)

/-- A_timerinterrupt of sr.c (packets_resent++ per resent packet). -/
def A_timerinterrupt (s : SenderState) : SenderState × List Ev :=
  let acts := resendSweep s s.windowcount.toNat 0
  ({ s with packets_resent := s.packets_resent + (sentPackets acts).length },
   acts ++ (if 0 < s.windowcount then [Ev.startTimer] else []))

/-- A_init of sr.c (static arrays start zeroed; counters start at 0). -/
def A_init_state : SenderState :=
  { buffer := fun _ => zeroPkt
    windowfirst := 0
    windowlast := -1
    windowcount := 0
    A_nextseqnum := 0
    acked := fun _ => false
    window_full := 0
    total_ACKs_received := 0
    new_ACKs := 0
    packets_resent := 0 }

/-- Receiver (B) state: the static variables of sr.c plus packets_received. -/
structure ReceiverState where
  expectedseqnum : Int
  B_nextseqnum : Int
  rcvbuffer : Int → Pkt
  received : Int → Bool
  rcv_base : Int
  packets_received : Int

/-- The wraparound-aware receive-window membership test of B_input
(lines 231-237), with rcv_end = (rcv_base + WINDOWSIZE - 1) % SEQSPACE. -/
def inRcvWindow (rcv_base seqnum : Int) : Prop :=
  (rcv_base ≤ (rcv_base + WINDOWSIZE - 1) % SEQSPACE ∧
     seqnum ≥ rcv_base ∧ seqnum ≤ (rcv_base + WINDOWSIZE - 1) % SEQSPACE) ∨
  (rcv_base > (rcv_base + WINDOWSIZE - 1) % SEQSPACE ∧
     (seqnum ≥ rcv_base ∨ seqnum ≤ (rcv_base + WINDOWSIZE - 1) % SEQSPACE))

instance (a b : Int) : Decidable (inRcvWindow a b) := by
  unfold inRcvWindow
  infer_instance

/-- The ACK/NAK packet B_input builds (lines 250-255, 275-280, 291-296):
seqnum NOTINUSE, the given acknum, a zeroed 20-byte payload, and the checksum
of those fields. -/
def mkAck (a : Int) : Pkt :=
  let draft : Pkt :=
    { seqnum := NOTINUSE, acknum := a, checksum := 0, payload := List.replicate 20 0 }
  { draft with checksum := ComputeChecksum draft }

/-- The state updates B_input performs on an in-window packet (lines 243-247):
packets_received++, mark the seqnum received, store the packet at slot
(seqnum - rcv_base + SEQSPACE) % SEQSPACE. -/
def storePacket (s : ReceiverState) (packet : Pkt) : ReceiverState :=
  { s with packets_received := s.packets_received + 1,
           received := setBool s.received packet.seqnum true,
           rcvbuffer := setPkt s.rcvbuffer
             ((packet.seqnum - s.rcv_base + SEQSPACE) % SEQSPACE) packet }

/-- The while-loop of B_input (lines 261-268): while the slot at rcv_base is
marked received, hand the payload of rcvbuffer[(rcv_base - rcv_base + SEQSPACE)
% SEQSPACE] (the index expression sr.c line 263 actually computes, which is
always 0) to layer 5, clear the flag and advance rcv_base.  Each iteration
clears a distinct residue, so SEQSPACE bounds the iterations of the C loop. -/
def deliverLoop : ReceiverState → Nat → ReceiverState × List Ev
  | t, 0 => (t, [])
  | t, fuel+1 =>
    if t.received t.rcv_base = true then
      let act := Ev.toLayer5
        ((t.rcvbuffer ((t.rcv_base - t.rcv_base + SEQSPACE) % SEQSPACE)).payload)
      let rest := deliverLoop
        { t with received := setBool t.received t.rcv_base false,
                 rcv_base := (t.rcv_base + 1) % SEQSPACE } fuel
      (rest.1, act :: rest.2)
    else (t, [])

/-- B_input of sr.c. -/
def B_input (s : ReceiverState) (packet : Pkt) : ReceiverState × List Ev :=
  if IsCorrupted packet = false then
    if inRcvWindow s.rcv_base packet.seqnum then
      let s1 := storePacket s packet
      let dr := deliverLoop s1 SEQSPACE.toNat
      (dr.1, Ev.toLayer3 (mkAck packet.seqnum) :: dr.2)
    else
      (s, [Ev.toLayer3 (mkAck packet.seqnum)])
  else
    (s, [Ev.toLayer3
      (mkAck (if s.rcv_base ≠ 0 then s.rcv_base - 1 else SEQSPACE - 1))])

/-- B_init of sr.c. -/
def B_init_state : ReceiverState :=
  { expectedseqnum := 0
    B_nextseqnum := 1
    rcvbuffer := fun _ => zeroPkt
    received := fun _ => false
    rcv_base := 0
    packets_received := 0 }

/-- The sender states reachable by arbitrary sequences of sender entry points. -/
inductive AReachable : SenderState → Prop
  | init : AReachable A_init_state
  | output (s : SenderState) (m : Msg) : AReachable s → AReachable (A_output s m).1
  | input (s : SenderState) (p : Pkt) : AReachable s → AReachable (A_input s p).1
  | timer (s : SenderState) : AReachable s → AReachable (A_timerinterrupt s).1

/-- Receiver base invariant: rcv_base is a valid sequence number and the slot
at rcv_base is not marked received. -/
def Binv (s : ReceiverState) : Prop :=
  0 ≤ s.rcv_base ∧ s.rcv_base < SEQSPACE ∧ s.received s.rcv_base = false

instance (s : ReceiverState) : Decidable (Binv s) := by
  unfold Binv
  infer_instance

/-- Structural sender window invariant: windowcount and windowfirst are in
range, windowlast is windowcount-1 slots after windowfirst, and the buffered
sequence numbers are consecutive modulo SEQSPACE starting at seqFirst. -/
def SenderWF (s : SenderState) : Prop :=
  0 ≤ s.windowcount ∧ s.windowcount ≤ WINDOWSIZE ∧
  0 ≤ s.windowfirst ∧ s.windowfirst < WINDOWSIZE ∧
  0 ≤ seqFirst s ∧ seqFirst s < SEQSPACE ∧
  (0 < s.windowcount → s.windowlast = (s.windowfirst + (s.windowcount - 1)) % WINDOWSIZE) ∧
  (∀ j : Nat, j < s.windowcount.toNat →
    (s.buffer ((s.windowfirst + (j : Int)) % WINDOWSIZE)).seqnum
      = (seqFirst s + (j : Int)) % SEQSPACE)

instance (s : SenderState) : Decidable (SenderWF s) := by
  unfold SenderWF
  infer_instance

/-- The protocol-relevant sender fields (window contents, flags, indexes,
count, next sequence number), as opposed to the instrumentation counters. -/
def protocolFieldsEq (s t : SenderState) : Prop :=
  s.buffer = t.buffer ∧ s.acked = t.acked ∧ s.windowfirst = t.windowfirst ∧
  s.windowlast = t.windowlast ∧ s.windowcount = t.windowcount ∧
  s.A_nextseqnum = t.A_nextseqnum

/-- Specification of A_output's non-full branch, following 4.2 of the spec. -/
def AOutputSendSpec (s : SenderState) (m : Msg) : Prop :=
  ∃ p : Pkt,
    p.seqnum = s.A_nextseqnum ∧ p.acknum = NOTINUSE ∧ p.payload = m.data ∧
    p.checksum = ComputeChecksum p ∧
    (A_output s m).2
      = Ev.toLayer3 p ::
          (if (A_output s m).1.windowcount = 1 then [Ev.startTimer] else []) ∧
    (A_output s m).1.windowlast = (s.windowlast + 1) % WINDOWSIZE ∧
    (A_output s m).1.buffer ((A_output s m).1.windowlast) = p ∧
    (A_output s m).1.windowcount = s.windowcount + 1 ∧
    (A_output s m).1.acked p.seqnum = false ∧
    (A_output s m).1.A_nextseqnum = (s.A_nextseqnum + 1) % SEQSPACE ∧
    (A_output s m).1.windowfirst = s.windowfirst ∧
    (A_output s m).1.window_full = s.window_full

/-- Specification of A_output's window-full branch: the message is dropped,
the window-full counter is incremented, nothing is transmitted, and all other
sender state is unchanged. -/
def AOutputDropSpec (s : SenderState) (m : Msg) : Prop :=
  (A_output s m).1.window_full = s.window_full + 1 ∧
  (A_output s m).2 = [] ∧
  protocolFieldsEq (A_output s m).1 s

/-- A_input marks the acknowledged sequence number in the acked array. -/
def AInputMarksSpec (s : SenderState) (p : Pkt) : Prop :=
  (A_input s p).1.acked p.acknum = true

/-- A_input slid the window: some d ≥ 1 heads, all acknowledged, were dropped,
the slide stopped at an unacknowledged head (or emptied the window), the timer
was stopped, and it was restarted iff packets remain outstanding. -/
def AInputSlideSpec (s : SenderState) (p : Pkt) : Prop :=
  ∃ d : Int, 1 ≤ d ∧ d ≤ s.windowcount ∧
    (A_input s p).1.windowcount = s.windowcount - d ∧
    (A_input s p).1.windowfirst = (s.windowfirst + d) % WINDOWSIZE ∧
    (∀ j : Int, 0 ≤ j → j < d →
      (A_input s p).1.acked ((s.buffer ((s.windowfirst + j) % WINDOWSIZE)).seqnum) = true) ∧
    ((A_input s p).1.windowcount = 0 ∨
      (A_input s p).1.acked ((s.buffer ((s.windowfirst + d) % WINDOWSIZE)).seqnum) = false) ∧
    (A_input s p).2
      = Ev.stopTimer ::
          (if 0 < (A_input s p).1.windowcount then [Ev.startTimer] else [])

/-- A_input did not slide the window and sent no timer commands. -/
def AInputNoSlideSpec (s : SenderState) (p : Pkt) : Prop :=
  (A_input s p).1.windowfirst = s.windowfirst ∧
  (A_input s p).1.windowcount = s.windowcount ∧
  (A_input s p).2 = []

/-- Specification of A_timerinterrupt: protocol state unchanged, exactly the
unacknowledged window packets retransmitted (each once), timer restarted iff
packets remain outstanding. -/
def ATimerSpec (s : SenderState) : Prop :=
  protocolFieldsEq (A_timerinterrupt s).1 s ∧
  (∀ q : Pkt, Ev.toLayer3 q ∈ (A_timerinterrupt s).2 ↔
    ∃ j : Nat, j < s.windowcount.toNat ∧
      q = s.buffer ((s.windowfirst + (j : Int)) % WINDOWSIZE) ∧
      s.acked q.seqnum = false) ∧
  ((sentPackets (A_timerinterrupt s).2).map Pkt.seqnum).Nodup ∧
  (Ev.startTimer ∈ (A_timerinterrupt s).2 ↔ 0 < s.windowcount)

/-- A two-packet sender window 0,1 used to instantiate hypotheses of the
sender theorems at concrete values. -/
def sampleSender : SenderState :=
  { buffer := fun i =>
      if i = 0 then { seqnum := 0, acknum := -1, checksum := -1, payload := List.replicate 20 0 }
      else if i = 1 then { seqnum := 1, acknum := -1, checksum := 0, payload := List.replicate 20 0 }
      else zeroPkt
    windowfirst := 0
    windowlast := 1
    windowcount := 2
    A_nextseqnum := 2
    acked := fun _ => false
    window_full := 0
    total_ACKs_received := 0
    new_ACKs := 0
    packets_resent := 0 }

/-- An uncorrupted ACK for sequence number 0 (the head of sampleSender). -/
def ackPkt0 : Pkt :=
  { seqnum := -1, acknum := 0, checksum := -1, payload := List.replicate 20 0 }

/-- An uncorrupted ACK for sequence number 5 (outside sampleSender's span). -/
def ackPkt5 : Pkt :=
  { seqnum := -1, acknum := 5, checksum := 4, payload := List.replicate 20 0 }

/-- An uncorrupted data packet with sequence number 7 (outside the initial
receive window 0..5). -/
def dataPkt7 : Pkt :=
  { seqnum := 7, acknum := -1, checksum := 6, payload := List.replicate 20 0 }

/-- A corrupted packet: the stored checksum does not match. -/
def badPkt : Pkt :=
  { seqnum := 0, acknum := 0, checksum := 999, payload := List.replicate 20 0 }

/-- Uncorrupted data packet 1 carrying payload bytes all 1. -/
def dataPkt1 : Pkt :=
  { seqnum := 1, acknum := -1, checksum := 20, payload := List.replicate 20 1 }

/-- Uncorrupted data packet 0 carrying payload bytes all 2. -/
def dataPkt0 : Pkt :=
  { seqnum := 0, acknum := -1, checksum := 39, payload := List.replicate 20 2 }

/-! Helper lemmas. -/

theorem sentPackets_nil : sentPackets [] = [] := rfl

theorem sentPackets_cons3 (p : Pkt) (l : List Ev) :
    sentPackets (Ev.toLayer3 p :: l) = p :: sentPackets l := rfl

theorem sentPackets_cons5 (pl : List Int) (l : List Ev) :
    sentPackets (Ev.toLayer5 pl :: l) = sentPackets l := rfl

theorem sum_range_getD (l : List Int) :
    ((List.range l.length).map (fun i => l.getD i 0)).sum = l.sum := by
  induction l with
  | nil => simp
  | cons a t ih =>
      rw [List.length_cons, List.range_succ_eq_map, List.map_cons, List.map_map]
      have hmap : ((fun i => (a :: t).getD i 0) ∘ Nat.succ) = fun i => t.getD i 0 := by
        funext i
        simp [List.getD_cons_succ]
      rw [List.sum_cons, List.getD_cons_zero, hmap, ih, List.sum_cons]

theorem sentPackets_deliverLoop :
    ∀ (fuel : Nat) (t : ReceiverState), sentPackets (deliverLoop t fuel).2 = [] := by
  intro fuel
  induction fuel with
  | zero => intro t; rfl
  | succ n ih =>
      intro t
      simp only [deliverLoop]
      split
      · rw [sentPackets_cons5]
        exact ih _
      · rfl

theorem mkAck_fields (a : Int) :
    (mkAck a).seqnum = NOTINUSE ∧ (mkAck a).acknum = a ∧
    (mkAck a).payload = List.replicate 20 0 ∧
    (mkAck a).checksum = ComputeChecksum (mkAck a) ∧
    IsCorrupted (mkAck a) = false := by
  refine ⟨rfl, rfl, rfl, rfl, ?_⟩
  simp [IsCorrupted, mkAck, ComputeChecksum]

/-! Claim theorems. -/

/-- Claim C7: the checksum of a packet is seqnum + acknum + the sum of its 20
payload bytes, and IsCorrupted holds exactly when the stored checksum field
differs from that computed value. -/
theorem checksum_formula (p : Pkt) (h : p.payload.length = 20) :
    ComputeChecksum p
        = p.seqnum + p.acknum + ((List.range 20).map (fun i => p.payload.getD i 0)).sum ∧
      (IsCorrupted p = true ↔ p.checksum ≠ ComputeChecksum p) := by
  constructor
  · rw [← h, sum_range_getD]
    rfl
  · unfold IsCorrupted
    by_cases hcs : p.checksum = ComputeChecksum p <;> simp [hcs]

/-- Witness for C7 at the concrete all-zero packet. -/
theorem checksum_formula_witness :
    ComputeChecksum zeroPkt
        = zeroPkt.seqnum + zeroPkt.acknum
            + ((List.range 20).map (fun i => zeroPkt.payload.getD i 0)).sum ∧
      (IsCorrupted zeroPkt = true ↔ zeroPkt.checksum ≠ ComputeChecksum zeroPkt) :=
  checksum_formula zeroPkt (by decide)

/-- Claim C2: if the window is not full, A_output builds a packet with
seqnum = nextSeqNum carrying the message payload, checksums it, appends it to
the window buffer unacknowledged, transmits it, starts the timer exactly when
windowCount becomes 1, and advances nextSeqNum mod SEQSPACE; if the window is
full, the message is dropped, the window-full counter is incremented, nothing
is transmitted and all other sender state is unchanged. -/
theorem aoutput_cases (s : SenderState) (m : Msg) :
    (s.windowcount < WINDOWSIZE → AOutputSendSpec s m) ∧
    (WINDOWSIZE ≤ s.windowcount → AOutputDropSpec s m) := by
  constructor
  · intro h
    unfold AOutputSendSpec
    refine ⟨{ seqnum := s.A_nextseqnum, acknum := NOTINUSE,
              checksum := ComputeChecksum
                { seqnum := s.A_nextseqnum, acknum := NOTINUSE,
                  checksum := 0, payload := m.data },
              payload := m.data },
            rfl, rfl, rfl, rfl, ?_, ?_, ?_, ?_, ?_, ?_, ?_, ?_⟩ <;>
      simp [A_output, if_pos h, setPkt, setBool]
  · intro h
    have h' : ¬ s.windowcount < WINDOWSIZE := not_lt.mpr h
    unfold AOutputDropSpec protocolFieldsEq
    simp [A_output, h']

/-- Witness for C2 in the non-full branch at the initial sender state. -/
theorem aoutput_cases_witness :
    AOutputSendSpec A_init_state { data := List.replicate 20 7 } :=
  (aoutput_cases A_init_state { data := List.replicate 20 7 }).1 (by decide)

/-- Claim C6: a corrupted packet is absorbed locally: A_input leaves the whole
sender state unchanged and sends nothing; B_input leaves the receiver state
unchanged, delivers nothing, and sends exactly one acknowledgment carrying
acknum = (rcv_base - 1) mod SEQSPACE. -/
theorem corruption_absorbed (s : SenderState) (t : ReceiverState) (p : Pkt)
    (hc : IsCorrupted p = true) (h0 : 0 ≤ t.rcv_base) (h1 : t.rcv_base < SEQSPACE) :
    A_input s p = (s, []) ∧
    B_input t p = (t, [Ev.toLayer3 (mkAck ((t.rcv_base - 1) % SEQSPACE))]) ∧
    (mkAck ((t.rcv_base - 1) % SEQSPACE)).acknum = (t.rcv_base - 1) % SEQSPACE := by
  refine ⟨?_, ?_, rfl⟩
  · simp [A_input, hc]
  · have he : (if t.rcv_base ≠ 0 then t.rcv_base - 1 else SEQSPACE - 1)
        = (t.rcv_base - 1) % SEQSPACE := by
      simp only [SEQSPACE] at h1 ⊢
      by_cases h : t.rcv_base = 0
      · simp [h]
      · rw [if_pos h]
        omega
    rw [B_input, if_neg (by simp [hc]), he]

/-- Witness for C6 at concrete corrupted input and initial states. -/
theorem corruption_absorbed_witness :
    A_input A_init_state badPkt = (A_init_state, []) ∧
    B_input B_init_state badPkt
        = (B_init_state, [Ev.toLayer3 (mkAck ((B_init_state.rcv_base - 1) % SEQSPACE))]) ∧
    (mkAck ((B_init_state.rcv_base - 1) % SEQSPACE)).acknum
        = (B_init_state.rcv_base - 1) % SEQSPACE :=
  corruption_absorbed A_init_state B_init_state badPkt (by decide) (by decide) (by decide)

/-- Claim C10: every B_input invocation hands exactly one reply packet to the
network, and that reply has seqnum NOTINUSE, an all-zero 20-byte payload, and
a checksum field equal to ComputeChecksum of the reply, so an undisturbed
reply is never classified corrupted. -/
theorem binput_one_reply (s : ReceiverState) (p : Pkt) :
    ∃ r : Pkt, sentPackets (B_input s p).2 = [r] ∧ r.seqnum = NOTINUSE ∧
      r.payload = List.replicate 20 0 ∧ r.checksum = ComputeChecksum r ∧
      IsCorrupted r = false := by
  unfold B_input
  split
  · split
    · refine ⟨mkAck p.seqnum, ?_, (mkAck_fields _).1, (mkAck_fields _).2.2.1,
              (mkAck_fields _).2.2.2.1, (mkAck_fields _).2.2.2.2⟩
      rw [sentPackets_cons3, sentPackets_deliverLoop]
    · exact ⟨mkAck p.seqnum, rfl, (mkAck_fields _).1, (mkAck_fields _).2.2.1,
             (mkAck_fields _).2.2.2.1, (mkAck_fields _).2.2.2.2⟩
  · exact ⟨mkAck _, rfl, (mkAck_fields _).1, (mkAck_fields _).2.2.1,
           (mkAck_fields _).2.2.2.1, (mkAck_fields _).2.2.2.2⟩

/-- Claim C1: evaluation of B_input at the failing arrival order packet 1 then
packet 0 (both uncorrupted, in-window): the drain loop reads
rcvbuffer[(rcv_base - rcv_base + SEQSPACE) % SEQSPACE], i.e. slot 0, on every
iteration, so packet 0's payload is delivered twice and packet 1's payload is
never delivered, instead of the claimed gap-free duplicate-free in-order
delivery of both payloads. -/
theorem b_delivery_bug :
    deliveredPayloads (B_input (B_input B_init_state dataPkt1).1 dataPkt0).2
        = [List.replicate 20 2, List.replicate 20 2] ∧
      dataPkt0.payload = List.replicate 20 2 ∧
      dataPkt1.payload = List.replicate 20 1 ∧
      deliveredPayloads (B_input (B_input B_init_state dataPkt1).1 dataPkt0).2
        ≠ [dataPkt0.payload, dataPkt1.payload] := by
  refine ⟨by decide, by decide, by decide, by decide⟩

theorem deliverLoop_zero (t : ReceiverState) : deliverLoop t 0 = (t, []) := rfl

theorem deliverLoop_succ (t : ReceiverState) (n : Nat) :
    deliverLoop t (n + 1)
      = if t.received t.rcv_base = true then
          ((deliverLoop { t with received := setBool t.received t.rcv_base false,
                                 rcv_base := (t.rcv_base + 1) % SEQSPACE } n).1,
           Ev.toLayer5
               ((t.rcvbuffer ((t.rcv_base - t.rcv_base + SEQSPACE) % SEQSPACE)).payload)
             :: (deliverLoop { t with received := setBool t.received t.rcv_base false,
                                      rcv_base := (t.rcv_base + 1) % SEQSPACE } n).2)
        else (t, []) := rfl

theorem slideWindow_succ (t : SenderState) (n : Nat) :
    slideWindow t (n + 1)
      = if 0 < t.windowcount ∧ t.acked ((t.buffer t.windowfirst).seqnum) = true then
          slideWindow { t with windowfirst := (t.windowfirst + 1) % WINDOWSIZE,
                               windowcount := t.windowcount - 1 } n
        else t := rfl

theorem resendSweep_succ (s : SenderState) (n : Nat) (i : Int) :
    resendSweep s (n + 1) i
      = (if s.acked ((s.buffer ((s.windowfirst + i) % WINDOWSIZE)).seqnum) = false
         then [Ev.toLayer3 (s.buffer ((s.windowfirst + i) % WINDOWSIZE))]
         else []) ++ resendSweep s n (i + 1) := rfl

theorem bumpAcks_buffer (s : SenderState) : (bumpAcks s).buffer = s.buffer := rfl

theorem bumpAcks_acked (s : SenderState) : (bumpAcks s).acked = s.acked := rfl

theorem bumpAcks_windowfirst (s : SenderState) : (bumpAcks s).windowfirst = s.windowfirst := rfl

theorem bumpAcks_windowlast (s : SenderState) : (bumpAcks s).windowlast = s.windowlast := rfl

theorem bumpAcks_windowcount (s : SenderState) : (bumpAcks s).windowcount = s.windowcount := rfl

theorem bumpAcks_A_nextseqnum (s : SenderState) :
    (bumpAcks s).A_nextseqnum = s.A_nextseqnum := rfl

theorem bumpAcks_seqFirst (s : SenderState) : seqFirst (bumpAcks s) = seqFirst s := rfl

theorem bumpAcks_seqLast (s : SenderState) : seqLast (bumpAcks s) = seqLast s := rfl

theorem bumpAcks_ackSearch (s : SenderState) (a : Int) :
    ackSearch (bumpAcks s) a = ackSearch s a := rfl

theorem markAck_buffer (s : SenderState) (a : Int) : (markAck s a).buffer = s.buffer := rfl

theorem markAck_acked (s : SenderState) (a : Int) :
    (markAck s a).acked = setBool s.acked a true := rfl

theorem markAck_windowfirst (s : SenderState) (a : Int) :
    (markAck s a).windowfirst = s.windowfirst := rfl

theorem markAck_windowlast (s : SenderState) (a : Int) :
    (markAck s a).windowlast = s.windowlast := rfl

theorem markAck_windowcount (s : SenderState) (a : Int) :
    (markAck s a).windowcount = s.windowcount := rfl

theorem markAck_A_nextseqnum (s : SenderState) (a : Int) :
    (markAck s a).A_nextseqnum = s.A_nextseqnum := rfl

theorem ackSearch_acked_none (s : SenderState) (a : Int) (h : s.acked a = true) :
    ackSearch s a = none := by
  unfold ackSearch
  have hn : (List.range s.windowcount.toNat).find? (fun i : Nat =>
      decide ((s.buffer ((s.windowfirst + (i : Int)) % WINDOWSIZE)).seqnum = a)
        && !(s.acked a)) = none := by
    apply List.find?_eq_none.mpr
    intro i _
    simp [h]
  rw [hn]
  rfl

/-- Claim C5: duplicate inputs are idempotent.  An uncorrupted ACK that is
out of span, already acknowledged, or arrives at an empty window leaves all
protocol sender state unchanged and emits nothing; an uncorrupted data packet
outside the receive window is re-acknowledged with acknum = its seqnum and
changes no receiver state. -/
theorem duplicate_inputs_noop (s : SenderState) (p : Pkt) (t : ReceiverState) (q : Pkt) :
    (IsCorrupted p = false →
      (s.windowcount = 0 ∨ ¬ ackInSpan (seqFirst s) (seqLast s) p.acknum ∨
        s.acked p.acknum = true) →
      protocolFieldsEq (A_input s p).1 s ∧ (A_input s p).2 = []) ∧
    (IsCorrupted q = false → ¬ inRcvWindow t.rcv_base q.seqnum →
      B_input t q = (t, [Ev.toLayer3 (mkAck q.seqnum)])) := by
  constructor
  · intro hc hcase
    by_cases h0 : s.windowcount = 0
    · simp [A_input, protocolFieldsEq, hc, h0, bumpAcks_buffer, bumpAcks_acked,
            bumpAcks_windowfirst, bumpAcks_windowlast, bumpAcks_windowcount,
            bumpAcks_A_nextseqnum]
    · rcases hcase with h0' | hspan | hak
      · exact absurd h0' h0
      · simp [A_input, protocolFieldsEq, hc, h0, hspan, bumpAcks_buffer, bumpAcks_acked,
              bumpAcks_windowfirst, bumpAcks_windowlast, bumpAcks_windowcount,
              bumpAcks_A_nextseqnum, bumpAcks_seqFirst, bumpAcks_seqLast]
      · by_cases hspan : ackInSpan (seqFirst s) (seqLast s) p.acknum
        · have hsearch : ackSearch s p.acknum = none :=
            ackSearch_acked_none s p.acknum hak
          simp [A_input, protocolFieldsEq, hc, h0, hspan, hsearch, bumpAcks_buffer,
                bumpAcks_acked, bumpAcks_windowfirst, bumpAcks_windowlast,
                bumpAcks_windowcount, bumpAcks_A_nextseqnum, bumpAcks_seqFirst,
                bumpAcks_seqLast, bumpAcks_ackSearch]
        · simp [A_input, protocolFieldsEq, hc, h0, hspan, bumpAcks_buffer, bumpAcks_acked,
                bumpAcks_windowfirst, bumpAcks_windowlast, bumpAcks_windowcount,
                bumpAcks_A_nextseqnum, bumpAcks_seqFirst, bumpAcks_seqLast]
  · intro hc hq
    simp [B_input, hc, hq]

/-- Witness for C5: out-of-span ACK 5 at the sample sender window 0..1, and
out-of-window data packet 7 at the initial receiver. -/
theorem duplicate_inputs_noop_witness :
    (protocolFieldsEq (A_input sampleSender ackPkt5).1 sampleSender ∧
      (A_input sampleSender ackPkt5).2 = []) ∧
    B_input B_init_state dataPkt7 = (B_init_state, [Ev.toLayer3 (mkAck dataPkt7.seqnum)]) :=
  ⟨(duplicate_inputs_noop sampleSender ackPkt5 B_init_state dataPkt7).1 (by decide)
      (Or.inr (Or.inl (by decide))),
   (duplicate_inputs_noop sampleSender ackPkt5 B_init_state dataPkt7).2 (by decide) (by decide)⟩

theorem deliverLoop_keeps_false :
    ∀ (fuel : Nat) (t : ReceiverState) (k : Int), t.received k = false →
      (deliverLoop t fuel).1.received k = false := by
  intro fuel
  induction fuel with
  | zero => intro t k h; exact h
  | succ n ih =>
      intro t k h
      rw [deliverLoop_succ]
      by_cases hg : t.received t.rcv_base = true
      · rw [if_pos hg]
        apply ih
        have hk : ¬ k = t.rcv_base := by
          intro he
          rw [he] at h
          rw [h] at hg
          exact Bool.false_ne_true hg
        simp [setBool, hk, h]
      · rw [if_neg hg]
        exact h

theorem deliverLoop_base_range :
    ∀ (fuel : Nat) (t : ReceiverState), 0 ≤ t.rcv_base → t.rcv_base < SEQSPACE →
      0 ≤ (deliverLoop t fuel).1.rcv_base ∧ (deliverLoop t fuel).1.rcv_base < SEQSPACE := by
  intro fuel
  induction fuel with
  | zero => intro t h0 h1; exact ⟨h0, h1⟩
  | succ n ih =>
      intro t h0 h1
      rw [deliverLoop_succ]
      by_cases hg : t.received t.rcv_base = true
      · rw [if_pos hg]
        apply ih
        · show (0:Int) ≤ (t.rcv_base + 1) % SEQSPACE
          simp only [SEQSPACE]
          omega
        · show (t.rcv_base + 1) % SEQSPACE < SEQSPACE
          simp only [SEQSPACE]
          omega
      · rw [if_neg hg]
        exact ⟨h0, h1⟩

theorem deliverLoop_end :
    ∀ (fuel : Nat) (t : ReceiverState), 0 ≤ t.rcv_base → t.rcv_base < SEQSPACE →
      (deliverLoop t fuel).1.received (deliverLoop t fuel).1.rcv_base = false ∨
      ((deliverLoop t fuel).1.rcv_base = (t.rcv_base + (fuel : Int)) % SEQSPACE ∧
        (0 < fuel → (deliverLoop t fuel).1.received t.rcv_base = false)) := by
  intro fuel
  induction fuel with
  | zero =>
      intro t h0 h1
      right
      rw [deliverLoop_zero]
      constructor
      · simp only [SEQSPACE] at h0 h1 ⊢
        push_cast
        omega
      · intro h
        exact absurd h (Nat.lt_irrefl 0)
  | succ n ih =>
      intro t h0 h1
      by_cases hg : t.received t.rcv_base = true
      · have h0' : (0:Int) ≤ ((t.rcv_base + 1) % SEQSPACE) := by
          simp only [SEQSPACE]; omega
        have h1' : ((t.rcv_base + 1) % SEQSPACE) < SEQSPACE := by
          simp only [SEQSPACE]; omega
        rw [deliverLoop_succ, if_pos hg]
        dsimp only
        rcases ih { t with received := setBool t.received t.rcv_base false,
                           rcv_base := (t.rcv_base + 1) % SEQSPACE } h0' h1' with hl | ⟨hb, _⟩
        · exact Or.inl hl
        · refine Or.inr ⟨?_, ?_⟩
          · rw [hb]
            dsimp only
            simp only [SEQSPACE]
            push_cast
            omega
          · intro _
            apply deliverLoop_keeps_false
            dsimp only
            simp [setBool]
      · left
        rw [deliverLoop_succ, if_neg hg]
        exact Bool.not_eq_true _ |>.mp hg

theorem deliverLoop_final_unmarked (t : ReceiverState)
    (h0 : 0 ≤ t.rcv_base) (h1 : t.rcv_base < SEQSPACE) :
    (deliverLoop t SEQSPACE.toNat).1.received (deliverLoop t SEQSPACE.toNat).1.rcv_base
      = false := by
  rcases deliverLoop_end SEQSPACE.toNat t h0 h1 with h | ⟨hb, hf⟩
  · exact h
  · have h12 : (t.rcv_base + ((SEQSPACE.toNat : Nat) : Int)) % SEQSPACE = t.rcv_base := by
      simp only [SEQSPACE] at h0 h1 ⊢
      norm_num
      omega
    rw [hb, h12]
    exact hf (by decide)

theorem deliverLoop_stable :
    ∀ (fuel : Nat) (t : ReceiverState),
      (deliverLoop t fuel).1.received (deliverLoop t fuel).1.rcv_base = false →
      deliverLoop t (fuel + 1) = deliverLoop t fuel := by
  intro fuel
  induction fuel with
  | zero =>
      intro t h
      rw [deliverLoop_zero] at h
      rw [deliverLoop_succ, if_neg]
      · rfl
      · simp only [Bool.not_eq_true]
        exact h
  | succ n ih =>
      intro t h
      by_cases hg : t.received t.rcv_base = true
      · rw [deliverLoop_succ t n, if_pos hg] at h
        rw [deliverLoop_succ t (n+1), deliverLoop_succ t n]
        simp only [if_pos hg]
        rw [ih _ h]
      · rw [deliverLoop_succ t (n+1), deliverLoop_succ t n, if_neg hg, if_neg hg]

/-- Claim C9: the receiver base invariant holds initially and is preserved by
B_input: rcv_base stays a valid sequence number whose received flag is false
(the drain loop runs until the slot at the base is unmarked), and the drain
loop is stable at fuel SEQSPACE, i.e. it terminates within SEQSPACE
iterations. -/
theorem receiver_base_invariant :
    Binv B_init_state ∧
    (∀ (s : ReceiverState) (p : Pkt), Binv s → Binv (B_input s p).1) ∧
    (∀ s : ReceiverState, 0 ≤ s.rcv_base → s.rcv_base < SEQSPACE →
      deliverLoop s (SEQSPACE.toNat + 1) = deliverLoop s SEQSPACE.toNat) := by
  refine ⟨by decide, ?_, ?_⟩
  · intro s p hb
    obtain ⟨h0, h1, h2⟩ := hb
    unfold B_input
    split
    · split
      · refine ⟨?_, ?_, ?_⟩
        · exact (deliverLoop_base_range SEQSPACE.toNat (storePacket s p) h0 h1).1
        · exact (deliverLoop_base_range SEQSPACE.toNat (storePacket s p) h0 h1).2
        · exact deliverLoop_final_unmarked (storePacket s p) h0 h1
      · exact ⟨h0, h1, h2⟩
    · exact ⟨h0, h1, h2⟩
  · intro s h0 h1
    exact deliverLoop_stable SEQSPACE.toNat s (deliverLoop_final_unmarked s h0 h1)

/-- Witness for C9: the invariant after delivering packet 1 to a fresh
receiver, and stability of the drain loop there. -/
theorem receiver_base_invariant_witness :
    Binv (B_input B_init_state dataPkt1).1 ∧
    deliverLoop B_init_state (SEQSPACE.toNat + 1) = deliverLoop B_init_state SEQSPACE.toNat :=
  ⟨receiver_base_invariant.2.1 B_init_state dataPkt1 (by decide),
   receiver_base_invariant.2.2 B_init_state (by decide) (by decide)⟩

theorem slideWindow_count_le :
    ∀ (fuel : Nat) (t : SenderState), 0 ≤ t.windowcount →
      0 ≤ (slideWindow t fuel).windowcount ∧
      (slideWindow t fuel).windowcount ≤ t.windowcount := by
  intro fuel
  induction fuel with
  | zero => intro t h; exact ⟨h, le_refl _⟩
  | succ n ih =>
      intro t h
      rw [slideWindow_succ]
      by_cases hg : 0 < t.windowcount ∧ t.acked ((t.buffer t.windowfirst).seqnum) = true
      · rw [if_pos hg]
        obtain ⟨hg1, _⟩ := hg
        have hr := ih { t with windowfirst := (t.windowfirst + 1) % WINDOWSIZE,
                               windowcount := t.windowcount - 1 } (by dsimp only; omega)
        refine ⟨hr.1, le_trans hr.2 ?_⟩
        dsimp only
        omega
      · rw [if_neg hg]
        exact ⟨h, le_refl _⟩

theorem A_input_count_bounds (s : SenderState) (p : Pkt) (h : 0 ≤ s.windowcount) :
    0 ≤ (A_input s p).1.windowcount ∧ (A_input s p).1.windowcount ≤ s.windowcount := by
  by_cases hc : IsCorrupted p = false
  · by_cases h0 : s.windowcount = 0
    · simp [A_input, hc, h0, bumpAcks_windowcount] <;> omega
    · by_cases hspan : ackInSpan (seqFirst s) (seqLast s) p.acknum
      · rcases hs : ackSearch s p.acknum with _ | idx
        · simp [A_input, hc, h0, hspan, hs, bumpAcks_windowcount, bumpAcks_seqFirst,
                bumpAcks_seqLast, bumpAcks_ackSearch] <;> omega
        · by_cases hidx : idx = s.windowfirst
          · simp only [A_input, hc, bumpAcks_windowcount, bumpAcks_seqFirst,
                bumpAcks_seqLast, bumpAcks_ackSearch, bumpAcks_windowfirst,
                markAck_windowcount, markAck_windowfirst, hs, hidx,
                eq_self_iff_true, if_true, ne_eq, h0, not_false_iff, hspan, if_pos]
            exact slideWindow_count_le _ _ h
          · simp [A_input, hc, h0, hspan, hs, hidx, bumpAcks_windowcount, bumpAcks_seqFirst,
                  bumpAcks_seqLast, bumpAcks_ackSearch, bumpAcks_windowfirst,
                  markAck_windowcount, markAck_windowfirst] <;> omega
      · simp [A_input, hc, h0, hspan, bumpAcks_windowcount, bumpAcks_seqFirst,
              bumpAcks_seqLast] <;> omega
  · simp [A_input, hc] <;> omega

theorem A_output_count_bounds (s : SenderState) (m : Msg)
    (h0 : 0 ≤ s.windowcount) (h1 : s.windowcount ≤ WINDOWSIZE) :
    0 ≤ (A_output s m).1.windowcount ∧ (A_output s m).1.windowcount ≤ WINDOWSIZE := by
  by_cases hw : s.windowcount < WINDOWSIZE
  · simp only [A_output, if_pos hw]
    simp only [WINDOWSIZE] at hw ⊢
    omega
  · simp only [A_output, if_neg hw]
    exact ⟨h0, h1⟩

/-- Claim C8: in every sender state reachable from A_init by any sequence of
A_output, A_input and A_timerinterrupt calls, 0 ≤ windowcount ≤ WINDOWSIZE,
and the configured constants satisfy SEQSPACE ≥ 2·WINDOWSIZE. -/
theorem sender_window_invariant (s : SenderState) (h : AReachable s) :
    (0 ≤ s.windowcount ∧ s.windowcount ≤ WINDOWSIZE) ∧ 2 * WINDOWSIZE ≤ SEQSPACE := by
  refine ⟨?_, by decide⟩
  induction h with
  | init => exact ⟨by decide, by decide⟩
  | output s m _ ih => exact A_output_count_bounds s m ih.1 ih.2
  | input s p _ ih =>
      have hb := A_input_count_bounds s p ih.1
      exact ⟨hb.1, le_trans hb.2 ih.2⟩
  | timer s _ ih => exact ih

/-- Witness for C8 at the initial sender state. -/
theorem sender_window_invariant_witness :
    (0 ≤ A_init_state.windowcount ∧ A_init_state.windowcount ≤ WINDOWSIZE) ∧
    2 * WINDOWSIZE ≤ SEQSPACE :=
  sender_window_invariant A_init_state AReachable.init

theorem find_first_of_unique {p : Nat → Bool} :
    ∀ (l : List Nat) (k : Nat), k ∈ l → p k = true → (∀ j ∈ l, p j = true → j = k) →
      l.find? p = some k := by
  intro l
  induction l with
  | nil => intro k hk _ _; exact absurd hk (List.not_mem_nil k)
  | cons x t ih =>
      intro k hk hpk huniq
      by_cases hx : p x = true
      · have hxk : x = k := huniq x (List.mem_cons_self x t) hx
        rw [List.find?_cons_of_pos _ hx, hxk]
      · rw [List.find?_cons_of_neg _ hx]
        have hkt : k ∈ t := by
          rcases List.mem_cons.mp hk with he | ht
          · rw [he] at hpk
            exact absurd hpk hx
          · exact ht
        exact ih k hkt hpk (fun j hj hpj => huniq j (List.mem_cons_of_mem _ hj) hpj)

theorem span_offset_exists (f c a : Int)
    (hf0 : 0 ≤ f) (hf1 : f < 12) (hc0 : 1 ≤ c) (hc1 : c ≤ 6)
    (ha0 : 0 ≤ a) (ha1 : a < 12)
    (hspan : ackInSpan f ((f + (c - 1)) % 12) a) :
    ∃ k : Nat, (k : Int) < c ∧ a = (f + (k : Int)) % 12 := by
  unfold ackInSpan at hspan
  by_cases hfa : f ≤ a
  · refine ⟨(a - f).toNat, ?_, ?_⟩ <;>
    · push_cast [Int.toNat_of_nonneg (by omega : (0:Int) ≤ a - f)]
      omega
  · refine ⟨(a + 12 - f).toNat, ?_, ?_⟩ <;>
    · push_cast [Int.toNat_of_nonneg (by omega : (0:Int) ≤ a + 12 - f)]
      omega

theorem ackSearch_found (s : SenderState) (a : Int) (k : Nat)
    (hnew : s.acked a = false)
    (hk : (k : Int) < s.windowcount)
    (hkseq : (s.buffer ((s.windowfirst + (k : Int)) % WINDOWSIZE)).seqnum = a)
    (huniq : ∀ j : Nat, (j : Int) < s.windowcount →
      (s.buffer ((s.windowfirst + (j : Int)) % WINDOWSIZE)).seqnum = a → j = k) :
    ackSearch s a = some ((s.windowfirst + (k : Int)) % WINDOWSIZE) := by
  unfold ackSearch
  have hfind : (List.range s.windowcount.toNat).find? (fun i : Nat =>
      decide ((s.buffer ((s.windowfirst + (i : Int)) % WINDOWSIZE)).seqnum = a)
        && !(s.acked a)) = some k := by
    apply find_first_of_unique
    · exact List.mem_range.mpr (by omega)
    · simp [hkseq, hnew]
    · intro j hj hpj
      have hj' : (j : Int) < s.windowcount := by
        have := List.mem_range.mp hj
        omega
      apply huniq j hj'
      simp [hnew] at hpj
      exact hpj
  rw [hfind]
  rfl

theorem slideWindow_spec :
    ∀ (fuel : Nat) (t : SenderState), 0 ≤ t.windowcount → fuel = t.windowcount.toNat →
      0 ≤ t.windowfirst → t.windowfirst < WINDOWSIZE →
      ∃ d : Int, 0 ≤ d ∧ d ≤ t.windowcount ∧
        (slideWindow t fuel).buffer = t.buffer ∧
        (slideWindow t fuel).acked = t.acked ∧
        (slideWindow t fuel).windowcount = t.windowcount - d ∧
        (slideWindow t fuel).windowfirst = (t.windowfirst + d) % WINDOWSIZE ∧
        (∀ j : Int, 0 ≤ j → j < d →
          t.acked ((t.buffer ((t.windowfirst + j) % WINDOWSIZE)).seqnum) = true) ∧
        ((slideWindow t fuel).windowcount = 0 ∨
          t.acked ((t.buffer ((t.windowfirst + d) % WINDOWSIZE)).seqnum) = false) := by
  intro fuel
  induction fuel with
  | zero =>
      intro t h0 hfuel hw0 hw1
      have hc0 : t.windowcount = 0 := by omega
      have hz : slideWindow t 0 = t := rfl
      have hiz : (t.windowfirst + 0) % WINDOWSIZE = t.windowfirst := by
        simp only [WINDOWSIZE] at hw0 hw1 ⊢
        omega
      refine ⟨0, le_refl 0, by omega, ?_, ?_, ?_, ?_, ?_, ?_⟩
      · rw [hz]
      · rw [hz]
      · rw [hz]
        omega
      · rw [hz, hiz]
      · intro j hj0 hjd
        omega
      · left
        rw [hz]
        omega
  | succ n ih =>
      intro t h0 hfuel hw0 hw1
      by_cases hg : 0 < t.windowcount ∧ t.acked ((t.buffer t.windowfirst).seqnum) = true
      · obtain ⟨hg1, hg2⟩ := hg
        rw [slideWindow_succ, if_pos ⟨hg1, hg2⟩]
        have hfuel' : n = (t.windowcount - 1).toNat := by omega
        have hwa : (0:Int) ≤ (t.windowfirst + 1) % WINDOWSIZE := by
          simp only [WINDOWSIZE]
          omega
        have hwb : (t.windowfirst + 1) % WINDOWSIZE < WINDOWSIZE := by
          simp only [WINDOWSIZE]
          omega
        have hca : (0:Int) ≤ t.windowcount - 1 := by omega
        obtain ⟨d1, hd0, hdc, hbuf, hack, hcnt, hfir, hlead, hstop⟩ :=
          ih { t with windowfirst := (t.windowfirst + 1) % WINDOWSIZE,
                      windowcount := t.windowcount - 1 } hca hfuel' hwa hwb
        dsimp only at hdc hbuf hack hcnt hfir hlead hstop
        refine ⟨d1 + 1, by omega, by omega, hbuf, hack, by omega, ?_, ?_, ?_⟩
        · rw [hfir]
          simp only [WINDOWSIZE]
          omega
        · intro j hj0 hjd
          by_cases hj : j = 0
          · rw [hj]
            have hiz : (t.windowfirst + 0) % WINDOWSIZE = t.windowfirst := by
              simp only [WINDOWSIZE] at hw0 hw1 ⊢
              omega
            rw [hiz]
            exact hg2
          · have hl := hlead (j - 1) (by omega) (by omega)
            have hiz : ((t.windowfirst + 1) % WINDOWSIZE + (j - 1)) % WINDOWSIZE
                = (t.windowfirst + j) % WINDOWSIZE := by
              simp only [WINDOWSIZE]
              omega
            rw [hiz] at hl
            exact hl
        · rcases hstop with hst | hst
          · exact Or.inl hst
          · have hiz : ((t.windowfirst + 1) % WINDOWSIZE + d1) % WINDOWSIZE
                = (t.windowfirst + (d1 + 1)) % WINDOWSIZE := by
              simp only [WINDOWSIZE]
              omega
            rw [hiz] at hst
            exact Or.inr hst
      · rw [slideWindow_succ, if_neg hg]
        refine ⟨0, le_refl 0, by omega, rfl, rfl, by omega, ?_, ?_, ?_⟩
        · have : (t.windowfirst + 0) % WINDOWSIZE = t.windowfirst := by
            simp only [WINDOWSIZE] at hw0 hw1 ⊢
            omega
          rw [this]
        · intro j hj0 hjd
          omega
        · rw [not_and_or] at hg
          rcases hg with hg | hg
          · exact Or.inl (by omega)
          · right
            have : (t.windowfirst + 0) % WINDOWSIZE = t.windowfirst := by
              simp only [WINDOWSIZE] at hw0 hw1 ⊢
              omega
            rw [this]
            exact Bool.not_eq_true _ |>.mp hg

/-- Claim C3: an uncorrupted ACK in the modular span of a non-empty window,
not yet acknowledged, is marked acknowledged; if it acknowledges the window's
head, the window slides by dropping d ≥ 1 acknowledged heads until an
unacknowledged head (or an empty window) remains, the timer is stopped and
restarted iff windowcount > 0 afterwards; otherwise the window indexes are
unchanged and no timer command is issued. -/
theorem ainput_new_ack (s : SenderState) (p : Pkt)
    (hc : IsCorrupted p = false) (hwf : SenderWF s) (hnz : s.windowcount ≠ 0)
    (ha0 : 0 ≤ p.acknum) (ha1 : p.acknum < SEQSPACE)
    (hspan : ackInSpan (seqFirst s) (seqLast s) p.acknum)
    (hnew : s.acked p.acknum = false) :
    AInputMarksSpec s p ∧
    (p.acknum = seqFirst s → AInputSlideSpec s p) ∧
    (p.acknum ≠ seqFirst s → AInputNoSlideSpec s p) := by
  obtain ⟨hc0, hcW, hf0, hfW, hs0, hsS, hlastEq, hslots⟩ := hwf
  have hcW6 : s.windowcount ≤ 6 := hcW
  have hfW6 : s.windowfirst < 6 := hfW
  have hsS12 : seqFirst s < 12 := hsS
  have ha12 : p.acknum < 12 := ha1
  have hcpos : 0 < s.windowcount := by omega
  have hlast' : seqLast s = (seqFirst s + (s.windowcount - 1)) % 12 := by
    have hb : (s.windowcount - 1).toNat < s.windowcount.toNat := by omega
    have hj := hslots (s.windowcount - 1).toNat hb
    have hcast : (((s.windowcount - 1).toNat : Nat) : Int) = s.windowcount - 1 := by omega
    rw [hcast] at hj
    unfold seqLast
    rw [hlastEq hcpos]
    exact hj
  obtain ⟨k, hkc, hak⟩ := span_offset_exists (seqFirst s) s.windowcount p.acknum hs0 hsS12
    (by omega) hcW6 ha0 ha12 (by rw [hlast'] at hspan; exact hspan)
  have hkn : k < s.windowcount.toNat := by omega
  have hkseq : (s.buffer ((s.windowfirst + (k : Int)) % WINDOWSIZE)).seqnum = p.acknum := by
    rw [hslots k hkn]
    exact hak.symm
  have huniq : ∀ j : Nat, (j : Int) < s.windowcount →
      (s.buffer ((s.windowfirst + (j : Int)) % WINDOWSIZE)).seqnum = p.acknum → j = k := by
    intro j hj hseq
    have hjn : j < s.windowcount.toNat := by omega
    rw [hslots j hjn] at hseq
    have h2 : (seqFirst s + (j : Int)) % 12 = (seqFirst s + (k : Int)) % 12 :=
      hseq.trans hak
    omega
  have hsearch : ackSearch s p.acknum = some ((s.windowfirst + (k : Int)) % WINDOWSIZE) :=
    ackSearch_found s p.acknum k hnew hkc hkseq huniq
  have hXacked : (markAck (bumpAcks s) p.acknum).acked p.acknum = true := by
    rw [markAck_acked]
    simp [setBool]
  by_cases hhead : p.acknum = seqFirst s
  · have hk0 : k = 0 := by
      have h2 := hak
      rw [hhead] at h2
      omega
    subst hk0
    have hidx : s.windowfirst % WINDOWSIZE = s.windowfirst := by
      simp only [WINDOWSIZE]
      omega
    have hA : A_input s p
        = (slideWindow (markAck (bumpAcks s) p.acknum) s.windowcount.toNat,
           Ev.stopTimer ::
             (if 0 < (slideWindow (markAck (bumpAcks s) p.acknum)
                  s.windowcount.toNat).windowcount
              then [Ev.startTimer] else [])) := by
      simp [A_input, hc, hnz, hspan, hsearch, hidx, bumpAcks_windowcount, bumpAcks_seqFirst,
        bumpAcks_seqLast, bumpAcks_ackSearch, markAck_windowfirst, bumpAcks_windowfirst,
        markAck_windowcount]
    obtain ⟨d, hd0, hdc, hbuf, hackEq, hcnt, hfir, hlead, hstop⟩ :=
      slideWindow_spec s.windowcount.toNat (markAck (bumpAcks s) p.acknum) hc0 rfl hf0 hfW
    have hXcount : (markAck (bumpAcks s) p.acknum).windowcount = s.windowcount := rfl
    have hXfirst : (markAck (bumpAcks s) p.acknum).windowfirst = s.windowfirst := rfl
    have hXbuffer : (markAck (bumpAcks s) p.acknum).buffer = s.buffer := rfl
    simp only [hXcount, hXfirst, hXbuffer] at hdc hcnt hfir hlead hstop
    have hd1 : 1 ≤ d := by
      by_contra hlt
      have hd00 : d = 0 := by omega
      subst hd00
      rcases hstop with hst | hst
      · omega
      · have hizero : (s.windowfirst + 0) % WINDOWSIZE = s.windowfirst := by
          simp only [WINDOWSIZE]
          omega
        rw [hizero] at hst
        have hseqf : (s.buffer s.windowfirst).seqnum = p.acknum := hhead.symm
        rw [hseqf] at hst
        rw [hXacked] at hst
        exact Bool.noConfusion hst
    refine ⟨?_, ?_, ?_⟩
    · unfold AInputMarksSpec
      rw [hA]
      dsimp only
      rw [hackEq]
      exact hXacked
    · intro _
      unfold AInputSlideSpec
      rw [hA]
      dsimp only
      refine ⟨d, hd1, hdc, hcnt, hfir, ?_, ?_, rfl⟩
      · intro j hj0 hjd
        rw [hackEq]
        exact hlead j hj0 hjd
      · rcases hstop with hst | hst
        · exact Or.inl hst
        · right
          rw [hackEq]
          exact hst
    · intro hne
      exact absurd hhead hne
  · have hkne : (k : Int) ≠ 0 := by
      intro hk0
      rw [hk0, add_zero] at hak
      have hmod : seqFirst s % 12 = seqFirst s := by omega
      rw [hmod] at hak
      exact hhead hak
    have hidxne : ((s.windowfirst + (k : Int)) % WINDOWSIZE) ≠ s.windowfirst := by
      simp only [WINDOWSIZE]
      omega
    have hA : A_input s p = (markAck (bumpAcks s) p.acknum, []) := by
      simp [A_input, hc, hnz, hspan, hsearch, hidxne, bumpAcks_windowcount, bumpAcks_seqFirst,
        bumpAcks_seqLast, bumpAcks_ackSearch, markAck_windowfirst, bumpAcks_windowfirst]
    refine ⟨?_, ?_, ?_⟩
    · unfold AInputMarksSpec
      rw [hA]
      dsimp only
      exact hXacked
    · intro h
      exact absurd h hhead
    · intro _
      unfold AInputNoSlideSpec
      rw [hA]
      dsimp only
      refine ⟨?_, ?_, rfl⟩
      · rw [markAck_windowfirst, bumpAcks_windowfirst]
      · rw [markAck_windowcount, bumpAcks_windowcount]

/-- Witness for C3: ACK 0 acknowledging the head of the sample window 0..1. -/
theorem ainput_new_ack_witness :
    AInputMarksSpec sampleSender ackPkt0 ∧
    (ackPkt0.acknum = seqFirst sampleSender → AInputSlideSpec sampleSender ackPkt0) ∧
    (ackPkt0.acknum ≠ seqFirst sampleSender → AInputNoSlideSpec sampleSender ackPkt0) :=
  ainput_new_ack sampleSender ackPkt0 (by decide) (by decide) (by decide) (by decide)
    (by decide) (by decide) (by decide)

theorem resendSweep_zero (s : SenderState) (i : Int) : resendSweep s 0 i = [] := rfl

theorem sentPackets_append (l1 l2 : List Ev) :
    sentPackets (l1 ++ l2) = sentPackets l1 ++ sentPackets l2 := by
  simp [sentPackets]

theorem mem_sentPackets (acts : List Ev) (q : Pkt) :
    q ∈ sentPackets acts ↔ Ev.toLayer3 q ∈ acts := by
  unfold sentPackets
  rw [List.mem_filterMap]
  constructor
  · rintro ⟨a, ha, hfa⟩
    cases a with
    | toLayer3 r =>
        have hrq : r = q := by simpa using hfa
        rw [← hrq]
        exact ha
    | toLayer5 pl => simp at hfa
    | startTimer => simp at hfa
    | stopTimer => simp at hfa
  · intro h
    exact ⟨Ev.toLayer3 q, h, rfl⟩

theorem sweep_mem (s : SenderState) (q : Pkt) :
    ∀ (fuel : Nat) (i0 : Int), Ev.toLayer3 q ∈ resendSweep s fuel i0 ↔
      ∃ j : Nat, j < fuel ∧ q = s.buffer ((s.windowfirst + i0 + (j : Int)) % WINDOWSIZE) ∧
        s.acked q.seqnum = false := by
  intro fuel
  induction fuel with
  | zero =>
      intro i0
      rw [resendSweep_zero]
      constructor
      · intro h
        exact absurd h (List.not_mem_nil _)
      · rintro ⟨j, hj, _, _⟩
        exact absurd hj (Nat.not_lt_zero j)
  | succ n ih =>
      intro i0
      rw [resendSweep_succ]
      by_cases hac : s.acked ((s.buffer ((s.windowfirst + i0) % WINDOWSIZE)).seqnum) = false
      · rw [if_pos hac]
        constructor
        · intro h
          rcases List.mem_append.mp h with h1 | h2
          · have hq : q = s.buffer ((s.windowfirst + i0) % WINDOWSIZE) :=
              Ev.toLayer3.inj (List.mem_singleton.mp h1)
            refine ⟨0, Nat.succ_pos n, ?_, ?_⟩
            · rw [hq]
              norm_num
            · rw [hq]
              exact hac
          · rcases (ih (i0 + 1)).mp h2 with ⟨j, hj, hq, hqa⟩
            refine ⟨j + 1, by omega, ?_, hqa⟩
            rw [hq]
            have he : s.windowfirst + (i0 + 1) + (j : Int)
                = s.windowfirst + i0 + ((j + 1 : Nat) : Int) := by
              push_cast
              ring
            rw [he]
        · rintro ⟨j, hj, hq, hqa⟩
          rcases Nat.eq_zero_or_pos j with hj0 | hjp
          · subst hj0
            apply List.mem_append.mpr
            left
            have hq' : q = s.buffer ((s.windowfirst + i0) % WINDOWSIZE) := by
              rw [hq]
              norm_num
            rw [hq']
            exact List.mem_singleton.mpr rfl
          · apply List.mem_append.mpr
            right
            apply (ih (i0 + 1)).mpr
            refine ⟨j - 1, by omega, ?_, hqa⟩
            rw [hq]
            have he : s.windowfirst + i0 + (j : Int)
                = s.windowfirst + (i0 + 1) + ((j - 1 : Nat) : Int) := by
              have hcast : ((j - 1 : Nat) : Int) = (j : Int) - 1 := by omega
              rw [hcast]
              ring
            rw [he]
      · rw [if_neg hac, List.nil_append]
        constructor
        · intro h
          rcases (ih (i0 + 1)).mp h with ⟨j, hj, hq, hqa⟩
          refine ⟨j + 1, by omega, ?_, hqa⟩
          rw [hq]
          have he : s.windowfirst + (i0 + 1) + (j : Int)
              = s.windowfirst + i0 + ((j + 1 : Nat) : Int) := by
            push_cast
            ring
          rw [he]
        · rintro ⟨j, hj, hq, hqa⟩
          rcases Nat.eq_zero_or_pos j with hj0 | hjp
          · subst hj0
            have hq' : q = s.buffer ((s.windowfirst + i0) % WINDOWSIZE) := by
              rw [hq]
              norm_num
            rw [hq'] at hqa
            exact absurd hqa hac
          · apply (ih (i0 + 1)).mpr
            refine ⟨j - 1, by omega, ?_, hqa⟩
            rw [hq]
            have he : s.windowfirst + i0 + (j : Int)
                = s.windowfirst + (i0 + 1) + ((j - 1 : Nat) : Int) := by
              have hcast : ((j - 1 : Nat) : Int) = (j : Int) - 1 := by omega
              rw [hcast]
              ring
            rw [he]

theorem sweep_no_start (s : SenderState) :
    ∀ (fuel : Nat) (i0 : Int), Ev.startTimer ∉ resendSweep s fuel i0 := by
  intro fuel
  induction fuel with
  | zero =>
      intro i0 h
      rw [resendSweep_zero] at h
      exact absurd h (List.not_mem_nil _)
  | succ n ih =>
      intro i0 h
      rw [resendSweep_succ] at h
      rcases List.mem_append.mp h with h1 | h2
      · by_cases hac : s.acked ((s.buffer ((s.windowfirst + i0) % WINDOWSIZE)).seqnum) = false
        · rw [if_pos hac] at h1
          simp at h1
        · rw [if_neg hac] at h1
          simp at h1
      · exact ih (i0 + 1) h2

theorem sweep_sent_nodup (s : SenderState) (hwf : SenderWF s) :
    ∀ (fuel : Nat) (i0 : Int), 0 ≤ i0 → i0 + (fuel : Int) ≤ s.windowcount →
      ((sentPackets (resendSweep s fuel i0)).map Pkt.seqnum).Nodup := by
  obtain ⟨hc0, hcW, hf0, hfW, hs0, hsS, hlastEq, hslots⟩ := hwf
  have hcW6 : s.windowcount ≤ 6 := hcW
  have hsS12 : seqFirst s < 12 := hsS
  intro fuel
  induction fuel with
  | zero =>
      intro i0 _ _
      rw [resendSweep_zero]
      simp [sentPackets]
  | succ n ih =>
      intro i0 hi0 hib
      rw [resendSweep_succ]
      by_cases hac : s.acked ((s.buffer ((s.windowfirst + i0) % WINDOWSIZE)).seqnum) = false
      · rw [if_pos hac, List.singleton_append, sentPackets_cons3, List.map_cons]
        refine List.nodup_cons.mpr ⟨?_, ih (i0 + 1) (by omega) (by push_cast at hib ⊢; omega)⟩
        intro hmem
        rcases List.mem_map.mp hmem with ⟨q, hqmem, hqeq⟩
        rcases (sweep_mem s q n (i0 + 1)).mp ((mem_sentPackets _ _).mp hqmem)
          with ⟨j, hj, hqbuf, _⟩
        have hjlt : i0 + 1 + (j : Int) < s.windowcount := by
          push_cast at hib
          omega
        have hidx1 : (i0 + 1 + (j : Int)).toNat < s.windowcount.toNat := by omega
        have hq1 := hslots ((i0 + 1 + (j : Int)).toNat) hidx1
        have hcast : (((i0 + 1 + (j : Int)).toNat : Nat) : Int) = i0 + 1 + (j : Int) := by
          omega
        rw [hcast] at hq1
        have hassoc : s.windowfirst + (i0 + 1) + (j : Int)
            = s.windowfirst + (i0 + 1 + (j : Int)) := by ring
        rw [hassoc] at hqbuf
        have hidx0 : (i0.toNat : Int) = i0 := by omega
        have hq0 := hslots i0.toNat (by omega)
        rw [hidx0] at hq0
        have hqs : q.seqnum = (seqFirst s + (i0 + 1 + (j : Int))) % SEQSPACE := by
          rw [hqbuf]
          exact hq1
        rw [hq0] at hqeq
        have hd12 : (seqFirst s + (i0 + 1 + (j : Int))) % 12
            = (seqFirst s + i0) % 12 := by
          have := hqeq
          rw [hqs] at this
          exact this
        omega
      · rw [if_neg hac, List.nil_append]
        exact ih (i0 + 1) (by omega) (by push_cast at hib ⊢; omega)

/-- Claim C4: A_timerinterrupt leaves the window, its flags, windowfirst,
windowcount and A_nextseqnum unchanged, retransmits exactly the window packets
whose acknowledgment flag is false (each once, never an acknowledged one), and
restarts the timer iff windowcount > 0. -/
theorem atimer_spec (s : SenderState) (hwf : SenderWF s) : ATimerSpec s := by
  unfold ATimerSpec protocolFieldsEq
  have hA : A_timerinterrupt s
      = ({ s with packets_resent := s.packets_resent
             + (sentPackets (resendSweep s s.windowcount.toNat 0)).length },
         resendSweep s s.windowcount.toNat 0
           ++ (if 0 < s.windowcount then [Ev.startTimer] else [])) := rfl
  rw [hA]
  dsimp only
  refine ⟨⟨rfl, rfl, rfl, rfl, rfl, rfl⟩, ?_, ?_, ?_⟩
  · intro q
    constructor
    · intro h
      rcases List.mem_append.mp h with h1 | h2
      · rcases (sweep_mem s q s.windowcount.toNat 0).mp h1 with ⟨j, hj, hq, hqa⟩
        refine ⟨j, hj, ?_, hqa⟩
        rw [hq]
        have he : s.windowfirst + 0 + (j : Int) = s.windowfirst + (j : Int) := by ring
        rw [he]
      · by_cases ht : 0 < s.windowcount
        · rw [if_pos ht] at h2
          simp at h2
        · rw [if_neg ht] at h2
          simp at h2
    · rintro ⟨j, hj, hq, hqa⟩
      apply List.mem_append.mpr
      left
      apply (sweep_mem s q s.windowcount.toNat 0).mpr
      refine ⟨j, hj, ?_, hqa⟩
      rw [hq]
      have he : s.windowfirst + (j : Int) = s.windowfirst + 0 + (j : Int) := by ring
      rw [he]
  · rw [sentPackets_append]
    have h2 : sentPackets (if 0 < s.windowcount then [Ev.startTimer] else []) = [] := by
      by_cases ht : 0 < s.windowcount
      · rw [if_pos ht]
        rfl
      · rw [if_neg ht]
        rfl
    rw [h2, List.append_nil]
    have hc0 : (0:Int) ≤ s.windowcount := hwf.1
    exact sweep_sent_nodup s hwf s.windowcount.toNat 0 (le_refl 0) (by omega)
  · constructor
    · intro h
      rcases List.mem_append.mp h with h1 | h2
      · exact absurd h1 (sweep_no_start s _ _)
      · by_cases ht : 0 < s.windowcount
        · exact ht
        · rw [if_neg ht] at h2
          exact absurd h2 (List.not_mem_nil _)
    · intro ht
      apply List.mem_append.mpr
      right
      rw [if_pos ht]
      exact List.mem_singleton.mpr rfl

/-- Witness for C4 at the sample sender window 0..1 (both unacknowledged). -/
theorem atimer_spec_witness : ATimerSpec sampleSender :=
  atimer_spec sampleSender (by decide)
